/-
  Verification of the voice-agent WebSocket proxy and client audio pipeline.

  The development shallowly embeds:
  - src/websocketProxy.js : the per-session proxy state machine
    (handleWebSocketConnection), as a step function over an explicit
    session state driven by socket events;
  - src/public/client.js : the playback queue (processAudioQueue and the
    audio branch of ws.onmessage), the linear-interpolation resampler
    (resampleAudio) and the float-to-PCM16 conversion
    (scriptProcessor.onaudioprocess).

  JS numbers are modelled by ℚ.  For the operations used here this is
  exact: clamping is exact, multiplication of a float32 sample (24-bit
  significand) by 32767 or 32768 (≤ 16 bits) is exact in binary64, and
  the Int16Array store truncates toward zero, modelled by toInt16 below.
-/
import Mathlib

namespace VoiceAgent

/-- WebSocket readyState values as in the ws library / browser API. -/
inductive WsReadyState where
  | CONNECTING
  | OPEN
  | CLOSING
  | CLOSED
deriving DecidableEq, Repr

/-- A text frame parsed by JSON.parse: its `type` field (none when the JSON
object has no such field) and an abstraction of the remaining fields.
Forwarding re-serializes with JSON.stringify, which preserves this value. -/
structure Envelope where
  type : Option String
  payload : String
deriving DecidableEq, Repr

/-- Data delivered by a WebSocket message event: a binary frame, a text frame
that parses as JSON, or a text frame on which JSON.parse throws. -/
inductive WsData where
  | binary (bytes : List Nat)
  | textGood (env : Envelope)
  | textBad (raw : String)
deriving DecidableEq, Repr

/-- State of one proxy session: the readyState of the two sockets together
with the closure-captured flags of handleWebSocketConnection
(isElevenLabsClosed, isElevenLabsReady). -/
structure ProxyState where
  feState : WsReadyState
  elState : WsReadyState
  isElevenLabsClosed : Bool
  isElevenLabsReady : Bool
deriving DecidableEq, Repr

/-- Observable socket operations the proxy performs.  The code never sends a
binary frame upstream, but the operation exists on the socket so it is a
constructor here; a theorem that it is never emitted is therefore meaningful. -/
inductive Action where
  | sendFrontend (env : Envelope)
  | sendFrontendBinary (bytes : List Nat)
  | sendUpstream (env : Envelope)
  | sendUpstreamBinary (bytes : List Nat)
  | pongUpstream
  | closeUpstream (code : Nat) (reason : String)
  | closeFrontend
deriving DecidableEq, Repr

/-- elevenLabsWs.on('open'): the upstream socket became OPEN; the handler only
logs. -/
def elOnOpen (s : ProxyState) : ProxyState × List Action :=
  ({ s with elState := .OPEN }, [])

/-- elevenLabsWs.on('error'): mark isElevenLabsClosed and, if the frontend is
open, send an error envelope downstream (message
"Connection failed to ElevenLabs.", details abstracted into the payload). -/
def elOnError (s : ProxyState) (err : String) : ProxyState × List Action :=
  let s1 := { s with isElevenLabsClosed := true }
  if s1.feState = .OPEN then
    (s1, [.sendFrontend ⟨some "error", "Connection failed to ElevenLabs." ++ err⟩])
  else (s1, [])

/-- elevenLabsWs.on('close'): the upstream socket is now CLOSED; mark
isElevenLabsClosed; if the frontend is neither CLOSED nor CLOSING, send
a conversationEnded envelope and close the frontend (which moves it to
CLOSING).  The code and reason arguments are only logged. -/
def elOnClose (s : ProxyState) (_code : Nat) (_reason : String) :
    ProxyState × List Action :=
  let s1 := { s with elState := .CLOSED, isElevenLabsClosed := true }
  if s1.feState ≠ .CLOSED ∧ s1.feState ≠ .CLOSING then
    ({ s1 with feState := .CLOSING },
     [.sendFrontend ⟨some "conversationEnded", ""⟩, .closeFrontend])
  else (s1, [])

/-- elevenLabsWs.on('message'): drop everything when the frontend is not OPEN;
forward binary frames verbatim; on a JSON parse error send an error envelope;
on parsed JSON: pong upstream for type "ping" (when upstream is OPEN), set
readiness and send elevenlabsReady for type "conversation_initiation_metadata",
and then — the if/else chain has no early return — send the parsed envelope
downstream in every case. -/
def elOnMessage (s : ProxyState) (data : WsData) : ProxyState × List Action :=
  if s.feState ≠ .OPEN then (s, [])
  else
    match data with
    | .binary b => (s, [.sendFrontendBinary b])
    | .textBad _ =>
        (s, [.sendFrontend ⟨some "error", "Error processing message from agent."⟩])
    | .textGood env =>
        let pongActs : List Action :=
          if env.type = some "ping" then
            if s.elState = .OPEN then [.pongUpstream] else []
          else []
        let ready := env.type = some "conversation_initiation_metadata"
        let s1 := if ready then { s with isElevenLabsReady := true } else s
        let readyActs : List Action :=
          if ready then [.sendFrontend ⟨some "elevenlabsReady", ""⟩] else []
        (s1, pongActs ++ readyActs ++ [.sendFrontend env])

/-- frontendWs.on('message'): binary frames are dropped; all text is dropped
until isElevenLabsReady, and when the upstream socket is not OPEN; a JSON
parse error is only logged; type "end_conversation" is consumed and closes
the upstream socket with code 1000 and reason "User ended conversation";
every other parsed envelope is forwarded upstream. -/
def feOnMessage (s : ProxyState) (data : WsData) : ProxyState × List Action :=
  match data with
  | .binary _ => (s, [])
  | .textBad _ =>
      if ¬ s.isElevenLabsReady then (s, [])
      else if s.elState ≠ .OPEN then (s, [])
      else (s, [])
  | .textGood env =>
      if ¬ s.isElevenLabsReady then (s, [])
      else if s.elState ≠ .OPEN then (s, [])
      else if env.type = some "end_conversation" then
        if s.elState = .OPEN then
          ({ s with elState := .CLOSING },
           [.closeUpstream 1000 "User ended conversation"])
        else (s, [])
      else (s, [.sendUpstream env])

/-- frontendWs.on('close'): the frontend socket is now CLOSED; if the upstream
was not closed by us and is OPEN or CONNECTING, close it with code 1000 and
reason "Frontend disconnected". -/
def feOnClose (s : ProxyState) : ProxyState × List Action :=
  let s1 := { s with feState := .CLOSED }
  if ¬ s1.isElevenLabsClosed ∧ (s1.elState = .OPEN ∨ s1.elState = .CONNECTING) then
    ({ s1 with elState := .CLOSING }, [.closeUpstream 1000 "Frontend disconnected"])
  else (s1, [])

/-- frontendWs.on('error'): if the upstream was not closed by us and is OPEN or
CONNECTING, close it with code 1011 and reason "Frontend error". -/
def feOnError (s : ProxyState) : ProxyState × List Action :=
  if ¬ s.isElevenLabsClosed ∧ (s.elState = .OPEN ∨ s.elState = .CONNECTING) then
    ({ s with elState := .CLOSING }, [.closeUpstream 1011 "Frontend error"])
  else (s, [])

/-- The socket events that drive one proxy session. -/
inductive Event where
  | elOpen
  | elError (err : String)
  | elClose (code : Nat) (reason : String)
  | elMessage (data : WsData)
  | feMessage (data : WsData)
  | feClose
  | feError
deriving DecidableEq, Repr

/-- Dispatch one event to its handler, as registered in
handleWebSocketConnection. -/
def step (s : ProxyState) : Event → ProxyState × List Action
  | .elOpen => elOnOpen s
  | .elError e => elOnError s e
  | .elClose c r => elOnClose s c r
  | .elMessage d => elOnMessage s d
  | .feMessage d => feOnMessage s d
  | .feClose => feOnClose s
  | .feError => feOnError s

/-- Process a list of events, accumulating the performed actions. -/
def run (s : ProxyState) : List Event → ProxyState × List Action
  | [] => (s, [])
  | e :: es =>
      let p := step s e
      let q := run p.1 es
      (q.1, p.2 ++ q.2)

/-- Session state right after handleWebSocketConnection is entered: the
accepted frontend socket is OPEN, the upstream socket is CONNECTING, both
flags are false. -/
def initState : ProxyState :=
  { feState := .OPEN, elState := .CONNECTING,
    isElevenLabsClosed := false, isElevenLabsReady := false }

/-- Whether an action sends a conversationEnded envelope to the frontend. -/
def isConvEnded : Action → Bool
  | .sendFrontend env => decide (env.type = some "conversationEnded")
  | _ => false

/-- Number of conversationEnded envelopes among the actions. -/
def convEndedCount (acts : List Action) : Nat :=
  (acts.filter isConvEnded).length

/-- Whether an event is the upstream close event. -/
def isElCloseEvt : Event → Bool
  | .elClose _ _ => true
  | _ => false

/-- Whether an event delivers an upstream text message that itself carries
type "conversationEnded" (which the proxy would forward verbatim). -/
def spoofsConvEnded : Event → Bool
  | .elMessage (.textGood env) => decide (env.type = some "conversationEnded")
  | _ => false

/-! ### Client playback queue (src/public/client.js) -/

/-- Client playback state: audioQueue and isAudioPlaying are the globals of
client.js; current is the buffer parked at the await inside
processAudioQueue (none when no render is in flight); rendered records,
in order, the buffers whose playback has completed. -/
structure PlaybackState where
  audioQueue : List (List Nat)
  isAudioPlaying : Bool
  current : Option (List Nat)
  rendered : List (List Nat)
deriving DecidableEq, Repr

/-- The synchronous portion of the processAudioQueue while-loop: shift
buffers, skipping empty ones (they complete instantly without an await),
until a nonempty buffer starts rendering (returned as the first component,
with the remaining queue) or the queue is exhausted. -/
def drain : List (List Nat) → Option (List Nat) × List (List Nat)
  | [] => (none, [])
  | b :: rest => if b = [] then drain rest else (some b, rest)

/-- Events driving the playback queue: an audio envelope with a nonempty
payload is decoded and enqueued by ws.onmessage (starting
processAudioQueue if it is not running), and the output device signals
completion of the buffer being rendered (source.onended, or the
resolve-on-error path, both of which resume the loop). -/
inductive PlayEvent where
  | enqueue (b : List Nat)
  | complete
deriving DecidableEq, Repr

/-- One event of the playback system.  JS is single-threaded: each handler
runs atomically up to its next await, which is exactly what each case
performs here. -/
def playStep (s : PlaybackState) : PlayEvent → PlaybackState
  | .enqueue b =>
      let q := s.audioQueue ++ [b]
      if s.isAudioPlaying then { s with audioQueue := q }
      else
        let d := drain q
        { s with audioQueue := d.2, isAudioPlaying := d.1.isSome, current := d.1 }
  | .complete =>
      match s.current with
      | none => s
      | some b =>
          let d := drain s.audioQueue
          { audioQueue := d.2, isAudioPlaying := d.1.isSome,
            current := d.1, rendered := s.rendered ++ [b] }

/-- Process a list of playback events from a state. -/
def runPlay (s : PlaybackState) : List PlayEvent → PlaybackState
  | [] => s
  | e :: es => runPlay (playStep s e) es

/-- Initial client playback state: empty queue, idle, nothing rendered. -/
def initPlay : PlaybackState :=
  { audioQueue := [], isAudioPlaying := false, current := none, rendered := [] }

/-- The buffers enqueued by a list of events, in order. -/
def enqueuedOf (es : List PlayEvent) : List (List Nat) :=
  es.filterMap fun e =>
    match e with
    | .enqueue b => some b
    | .complete => none

/-- Nonempty-buffer filter used to relate enqueued and rendered buffers
(empty buffers are skipped by the loop, not rendered). -/
def nonEmptyBuf (b : List Nat) : Bool := !b.isEmpty

/-- Invariant of the playback system relating a state to the list of buffers
enqueued so far: the pending queue is a suffix of the enqueued list, and the
completed renders followed by the buffer in flight are exactly the nonempty
buffers of the consumed part, in order; the playing flag holds exactly while
a buffer is in flight; an idle worker leaves no pending queue behind. -/
def PlayInv (enq : List (List Nat)) (s : PlaybackState) : Prop :=
  (∃ p, enq = p ++ s.audioQueue
     ∧ s.rendered ++ s.current.toList = p.filter nonEmptyBuf)
  ∧ s.isAudioPlaying = s.current.isSome
  ∧ (s.isAudioPlaying = false → s.audioQueue = [])

/-! ### Client audio math (src/public/client.js) -/

/-- Math.round on a nonnegative JS number: round half up. -/
def jsRound (x : ℚ) : ℤ := ⌊x + 1/2⌋

/-- resampleAudio from client.js: identity when the rates are equal,
otherwise linear interpolation with outputLength =
Math.round(inputLength * outputSampleRate / inputSampleRate) and
step = inputSampleRate / outputSampleRate.  Out-of-range reads (which
never occur for positive rates, see the bounds theorem) are modelled
with getD. -/
def resampleAudio (inputAudioData : List ℚ)
    (inputSampleRate outputSampleRate : ℚ) : List ℚ :=
  if inputSampleRate = outputSampleRate then inputAudioData
  else
    let inputLength := inputAudioData.length
    let outputLength := (jsRound (inputLength * outputSampleRate / inputSampleRate)).toNat
    let step := inputSampleRate / outputSampleRate
    (List.range outputLength).map fun (i : ℕ) =>
      let index : ℚ := (i : ℚ) * step
      let index1 : ℤ := ⌊index⌋
      let index2 : ℤ := min (index1 + 1) ((inputLength : ℤ) - 1)
      let fraction : ℚ := index - index1
      inputAudioData.getD index1.toNat 0
        + fraction * (inputAudioData.getD index2.toNat 0 - inputAudioData.getD index1.toNat 0)

/-- Modelled from the spec (§4.2, step 2), as the reference definition for the
refinement claim: when the rates are equal the output equals the input;
otherwise, for output index i, with step = srcRate/dstRate, idx = i*step,
i0 = floor(idx), i1 = min(i0+1, len-1) and frac the fractional part of idx,
out[i] = in[i0] + frac*(in[i1]-in[i0]).  The spec leaves the output length
implicit; the code's Math.round(len*dstRate/srcRate) is used. -/
def resampleSpecRef (input : List ℚ) (srcRate dstRate : ℚ) : List ℚ :=
  if srcRate = dstRate then input
  else
    (List.range (jsRound (input.length * dstRate / srcRate)).toNat).map fun (i : ℕ) =>
      let idx : ℚ := (i : ℚ) * (srcRate / dstRate)
      let i0 : ℕ := ⌊idx⌋.toNat
      let i1 : ℕ := min (⌊idx⌋ + 1) ((input.length : ℤ) - 1) |>.toNat
      input.getD i0 0 + Int.fract idx * (input.getD i1 0 - input.getD i0 0)

/-- Truncation toward zero, as JS number-to-integer conversion performs. -/
def truncTowardZero (x : ℚ) : ℤ := if x < 0 then ⌈x⌉ else ⌊x⌋

/-- The ToInt16 conversion performed by an Int16Array element store:
truncate toward zero, reduce modulo 2^16, reinterpret as signed. -/
def toInt16 (x : ℚ) : ℤ :=
  if truncTowardZero x % 65536 ≥ 32768 then truncTowardZero x % 65536 - 65536
  else truncTowardZero x % 65536

/-- The clamping Math.max(-1, Math.min(1, sample)) performed per sample by
scriptProcessor.onaudioprocess. -/
def clampSample (x : ℚ) : ℚ := max (-1) (min 1 x)

/-- The sample conversion of scriptProcessor.onaudioprocess: clamp to
[-1, 1], scale negatives by 0x8000 and non-negatives by 0x7FFF, store
into an Int16Array. -/
def floatToPcm16 (x : ℚ) : ℤ :=
  if clampSample x < 0 then toInt16 (clampSample x * 32768)
  else toInt16 (clampSample x * 32767)

/-! ### Basic facts about the session step function -/

theorem run_fst_append (s : ProxyState) (es1 es2 : List Event) :
    (run s (es1 ++ es2)).1 = (run (run s es1).1 es2).1 := by
  induction es1 generalizing s with
  | nil => simp [run]
  | cons e es ih => simp [run, ih]

theorem run_snd_append (s : ProxyState) (es1 es2 : List Event) :
    (run s (es1 ++ es2)).2 = (run s es1).2 ++ (run (run s es1).1 es2).2 := by
  induction es1 generalizing s with
  | nil => simp [run]
  | cons e es ih => simp [run, ih]

theorem convEndedCount_append (a b : List Action) :
    convEndedCount (a ++ b) = convEndedCount a + convEndedCount b := by
  simp [convEndedCount, List.filter_append]

/-- No handler other than the upstream close handler emits a
conversationEnded envelope, provided the upstream did not itself send a
message of that type. -/
theorem step_no_convEnded (s : ProxyState) (e : Event)
    (h1 : isElCloseEvt e = false) (h2 : spoofsConvEnded e = false) :
    convEndedCount (step s e).2 = 0 := by
  cases e with
  | elOpen => rfl
  | elError err =>
      simp only [step, elOnError]
      split <;> rfl
  | elClose c r => simp [isElCloseEvt] at h1
  | elMessage d =>
      cases d with
      | binary b =>
          simp only [step, elOnMessage]
          split <;> rfl
      | textBad raw =>
          simp only [step, elOnMessage]
          split <;> rfl
      | textGood env =>
          simp only [spoofsConvEnded, decide_eq_false_iff_not] at h2
          simp only [step, elOnMessage]
          split
          · rfl
          · simp only [convEndedCount, List.filter_append, List.length_append]
            split <;> split <;>
              simp_all [isConvEnded, convEndedCount]
  | feMessage d =>
      cases d with
      | binary b => rfl
      | textBad raw =>
          simp only [step, feOnMessage]
          split <;> try rfl
          split <;> rfl
      | textGood env =>
          simp only [step, feOnMessage]
          split <;> try rfl
          split <;> try rfl
          split
          · split <;> rfl
          · rfl
  | feClose =>
      simp only [step, feOnClose]
      split <;> rfl
  | feError =>
      simp only [step, feOnError]
      split <;> rfl

/-- Over a trace without the upstream close event and without upstream
messages typed conversationEnded, no conversationEnded envelope is emitted. -/
theorem run_no_convEnded (es : List Event) (s : ProxyState)
    (h : ∀ e ∈ es, isElCloseEvt e = false ∧ spoofsConvEnded e = false) :
    convEndedCount (run s es).2 = 0 := by
  induction es generalizing s with
  | nil => rfl
  | cons e es ih =>
      have he := h e (by simp)
      simp only [run, convEndedCount_append]
      rw [step_no_convEnded s e he.1 he.2, ih _ fun x hx => h x (by simp [hx])]

/-- The upstream close handler emits exactly one conversationEnded envelope
when the frontend socket is neither CLOSED nor CLOSING, and none otherwise. -/
theorem elClose_convEnded_count (s : ProxyState) (c : Nat) (r : String) :
    convEndedCount (step s (.elClose c r)).2
      = if s.feState ≠ .CLOSED ∧ s.feState ≠ .CLOSING then 1 else 0 := by
  obtain ⟨fe, el, b1, b2⟩ := s
  cases fe <;> rfl


/-! ### Facts about the playback queue -/

/-- drain splits the queue into a consumed part, whose nonempty buffers are
exactly the buffer now rendering (none when the queue was all-empty, in which
case nothing remains pending), and the remaining queue. -/
theorem drain_decomp (q : List (List Nat)) :
    ∃ d, q = d ++ (drain q).2
      ∧ d.filter nonEmptyBuf = (drain q).1.toList
      ∧ ((drain q).1 = none → (drain q).2 = []) := by
  induction q with
  | nil => exact ⟨[], rfl, rfl, fun _ => rfl⟩
  | cons hd tl ih =>
      by_cases h : hd = []
      · subst h
        have hd1 : drain ([] :: tl) = drain tl := by simp [drain]
        obtain ⟨d, h1, h2, h3⟩ := ih
        refine ⟨[] :: d, ?_, ?_, ?_⟩
        · rw [hd1]; exact congrArg (List.cons []) h1
        · rw [hd1]; simpa [nonEmptyBuf] using h2
        · rw [hd1]; exact h3
      · have hd1 : drain (hd :: tl) = (some hd, tl) := by simp [drain, h]
        refine ⟨[hd], ?_, ?_, ?_⟩
        · simp [hd1]
        · rw [hd1]; simp [nonEmptyBuf, h]
        · rw [hd1]; intro hnone; cases hnone

/-- Each playback event preserves the playback invariant, extending the
enqueued list by the enqueued buffer when there is one. -/
theorem playStep_inv (enq : List (List Nat)) (s : PlaybackState) (e : PlayEvent)
    (h : PlayInv enq s) : PlayInv (enq ++ enqueuedOf [e]) (playStep s e) := by
  obtain ⟨⟨p, e1, e2⟩, h2, h3⟩ := h
  cases e with
  | enqueue b =>
      by_cases hp : s.isAudioPlaying = true
      · refine ⟨⟨p, ?_, ?_⟩, ?_, ?_⟩
        · simp [playStep, hp, enqueuedOf, e1]
        · simpa [playStep, hp] using e2
        · simpa [playStep, hp] using h2
        · simp [playStep, hp]
      · have hpf : s.isAudioPlaying = false := by simpa using hp
        have hc : s.current = none := by
          rw [hpf] at h2; exact Option.not_isSome_iff_eq_none.mp (by simp [← h2])
        have hq : s.audioQueue = [] := h3 hpf
        obtain ⟨d0, g1, g2, g3⟩ := drain_decomp (s.audioQueue ++ [b])
        refine ⟨⟨p ++ d0, ?_, ?_⟩, ?_, ?_⟩
        · simp only [playStep, hpf, if_false, Bool.false_eq_true, enqueuedOf,
            List.filterMap]
          rw [List.append_assoc, ← g1]
          simp [e1, hq]
        · simp only [playStep, hpf, Bool.false_eq_true, if_false]
          rw [List.filter_append, ← g2, ← e2, hc]
          simp
        · simp [playStep, hpf]
        · simp only [playStep, hpf, Bool.false_eq_true, if_false]
          intro hnone
          exact g3 (Option.not_isSome_iff_eq_none.mp (by simp [hnone]))
  | complete =>
      cases hc : s.current with
      | none =>
          rw [hc] at e2
          simp only [Option.toList, List.append_nil] at e2
          refine ⟨⟨p, ?_, ?_⟩, ?_, ?_⟩
          · simp [playStep, hc, enqueuedOf, e1]
          · simpa [playStep, hc] using e2
          · simpa [playStep, hc] using h2
          · simpa [playStep, hc] using h3
      | some b =>
          obtain ⟨d0, g1, g2, g3⟩ := drain_decomp s.audioQueue
          refine ⟨⟨p ++ d0, ?_, ?_⟩, ?_, ?_⟩
          · simp only [playStep, hc, enqueuedOf, List.filterMap]
            rw [List.append_assoc, ← g1]
            simp [e1]
          · simp only [playStep, hc]
            rw [List.filter_append, ← g2]
            rw [hc] at e2
            simp only [Option.toList] at e2
            simp [← e2]
          · simp [playStep, hc]
          · simp only [playStep, hc]
            intro hnone
            exact g3 (Option.not_isSome_iff_eq_none.mp (by simp [hnone]))

/-- enqueuedOf splits over cons. -/
theorem enqueuedOf_cons (e : PlayEvent) (es : List PlayEvent) :
    enqueuedOf (e :: es) = enqueuedOf [e] ++ enqueuedOf es := by
  cases e <;> simp [enqueuedOf]

/-- The playback invariant holds along any event sequence. -/
theorem runPlay_inv (es : List PlayEvent) (enq : List (List Nat))
    (s : PlaybackState) (h : PlayInv enq s) :
    PlayInv (enq ++ enqueuedOf es) (runPlay s es) := by
  induction es generalizing enq s with
  | nil => simpa [enqueuedOf] using h
  | cons e es ih =>
      have step1 := playStep_inv enq s e h
      have h4 := ih (enq ++ enqueuedOf [e]) (playStep s e) step1
      rw [enqueuedOf_cons, ← List.append_assoc]
      exact h4

/-! ### Claims about message handling (C2, C3, C4, C5, C10) -/

/-- C2: evaluation of the code at the failing input.  The claim says a parsed
upstream "ping" results in a pong and nothing sent downstream; the ping
branch of elevenLabsWs.on('message') has no early return, so after the pong
the fall-through send forwards the ping envelope to the frontend. -/
theorem pingForwardedDownstream :
    step { feState := .OPEN, elState := .OPEN,
           isElevenLabsClosed := false, isElevenLabsReady := true }
        (.elMessage (.textGood ⟨some "ping", "event_id:1"⟩))
      = ({ feState := .OPEN, elState := .OPEN,
           isElevenLabsClosed := false, isElevenLabsReady := true },
         [.pongUpstream, .sendFrontend ⟨some "ping", "event_id:1"⟩]) := by
  decide

/-- C3: while isElevenLabsReady is false, every frontend message (binary,
well-formed text or malformed text) is dropped: the handler performs no
action at all — in particular nothing is sent upstream — and leaves the
session state unchanged, so the message is not buffered anywhere. -/
theorem notReadyFrontendDropped (s : ProxyState) (d : WsData)
    (h : s.isElevenLabsReady = false) :
    step s (.feMessage d) = (s, []) := by
  cases d <;> simp [step, feOnMessage, h]

/-- Witness for C3 at a concrete not-ready state and a user_audio_chunk. -/
theorem notReadyFrontendDroppedWitness :
    step initState (.feMessage (.textGood ⟨some "user_audio_chunk", "UklGR"⟩))
      = (initState, []) :=
  notReadyFrontendDropped initState _ rfl

/-- C4 counterexample: before readiness an end_conversation message produces
no upstream close at all, and when it does close, the close reason is
"User ended conversation", not "user ended conversation" as claimed. -/
theorem endConversationCounterexample :
    (step { feState := .OPEN, elState := .OPEN,
            isElevenLabsClosed := false, isElevenLabsReady := false }
        (.feMessage (.textGood ⟨some "end_conversation", ""⟩))).2 = []
    ∧ (step { feState := .OPEN, elState := .OPEN,
              isElevenLabsClosed := false, isElevenLabsReady := true }
        (.feMessage (.textGood ⟨some "end_conversation", ""⟩))).2
        = [.closeUpstream 1000 "User ended conversation"]
    ∧ "User ended conversation" ≠ "user ended conversation" := by
  decide

/-- C4 (amended): a downstream end_conversation envelope is never forwarded
upstream, and in a Ready session with the upstream socket open it closes the
upstream socket with code 1000 and reason "User ended conversation". -/
theorem endConversationConsumedClosesUpstream (s : ProxyState) (env : Envelope)
    (h : env.type = some "end_conversation") :
    (∀ a ∈ (step s (.feMessage (.textGood env))).2, ∀ e2, a ≠ Action.sendUpstream e2)
    ∧ (s.isElevenLabsReady = true → s.elState = .OPEN →
        step s (.feMessage (.textGood env))
          = ({ s with elState := .CLOSING },
             [.closeUpstream 1000 "User ended conversation"])) := by
  constructor
  · intro a ha e2
    simp only [step, feOnMessage, h] at ha
    split at ha
    · simp at ha
    · split at ha
      · simp at ha
      · rw [if_pos trivial] at ha
        split at ha <;> simp_all
  · intro h1 h2
    simp [step, feOnMessage, h, h1, h2]

/-- Witness for C4's amended theorem in a Ready session with upstream open. -/
theorem endConversationConsumedWitness :
    step { feState := .OPEN, elState := .OPEN,
           isElevenLabsClosed := false, isElevenLabsReady := true }
        (.feMessage (.textGood ⟨some "end_conversation", ""⟩))
      = ({ feState := .OPEN, elState := .CLOSING,
           isElevenLabsClosed := false, isElevenLabsReady := true },
         [.closeUpstream 1000 "User ended conversation"]) :=
  (endConversationConsumedClosesUpstream _ _ rfl).2 rfl rfl

/-- C5 counterexample: a binary frame received from the frontend is dropped —
the handler performs no action, so no identical binary frame (indeed nothing
at all) is sent to the upstream socket, refuting the claimed symmetric
forwarding. -/
theorem frontendBinaryDroppedCounterexample :
    (step { feState := .OPEN, elState := .OPEN,
            isElevenLabsClosed := false, isElevenLabsReady := true }
        (.feMessage (.binary [1, 2, 3]))).2 = []
    ∧ Action.sendUpstreamBinary [1, 2, 3]
        ∉ (step { feState := .OPEN, elState := .OPEN,
                  isElevenLabsClosed := false, isElevenLabsReady := true }
            (.feMessage (.binary [1, 2, 3]))).2 := by
  decide

/-- C5 (amended): binary forwarding is one-directional.  An N-byte upstream
binary frame is forwarded downstream identically whenever the frontend
socket is open; a frontend binary frame is always dropped, with nothing
sent upstream. -/
theorem binaryForwardingOneDirectional (s : ProxyState) (b : List Nat)
    (h : s.feState = .OPEN) :
    step s (.elMessage (.binary b)) = (s, [.sendFrontendBinary b])
    ∧ step s (.feMessage (.binary b)) = (s, []) := by
  constructor
  · simp [step, elOnMessage, h]
  · rfl

/-- Witness for C5's amended theorem at a concrete open session. -/
theorem binaryForwardingOneDirectionalWitness :
    step initState (.elMessage (.binary [0, 255, 7]))
      = (initState, [.sendFrontendBinary [0, 255, 7]])
    ∧ step initState (.feMessage (.binary [0, 255, 7])) = (initState, []) :=
  binaryForwardingOneDirectional initState [0, 255, 7] rfl

/-- C10: before readiness a downstream end_conversation is discarded by the
readiness gate like any other downstream message — the state is unchanged and
no action is performed — and no frontend message whatsoever can close the
upstream socket while the session is not Ready, so the close-with-1000
behaviour applies only to Ready sessions. -/
theorem endConversationRequiresReadiness (s : ProxyState) (p : String)
    (h : s.isElevenLabsReady = false) :
    step s (.feMessage (.textGood ⟨some "end_conversation", p⟩)) = (s, [])
    ∧ ∀ (d : WsData) (c : Nat) (r : String),
        Action.closeUpstream c r ∉ (step s (.feMessage d)).2 := by
  constructor
  · simp [step, feOnMessage, h]
  · intro d c r hmem
    cases d <;> simp [step, feOnMessage, h] at hmem

/-- Witness for C10 at the initial (not yet Ready) session state. -/
theorem endConversationRequiresReadinessWitness :
    step initState (.feMessage (.textGood ⟨some "end_conversation", ""⟩))
      = (initState, []) :=
  (endConversationRequiresReadiness initState "" rfl).1

/-! ### Claim C1: conversationEnded delivery -/

/-- C1 counterexample: a complete session (exactly one upstream close event,
no upstream message spoofing the type) in which the frontend disconnects
first delivers zero conversationEnded envelopes, refuting "never zero
times ... regardless of ... downstream disconnect". -/
theorem convEndedZeroOnClientDisconnect :
    (([Event.feClose, Event.elClose 1000 ""].filter isElCloseEvt).length = 1
     ∧ ([Event.feClose, Event.elClose 1000 ""].filter spoofsConvEnded).length = 0)
    ∧ convEndedCount (run initState [Event.feClose, Event.elClose 1000 ""]).2 = 0 := by
  decide

/-- C1 (amended): in a complete session — one upstream close event, and the
upstream never sends an envelope itself typed conversationEnded — the number
of conversationEnded envelopes sent downstream is one when the frontend
socket is still open (neither CLOSED nor CLOSING) at the moment the upstream
close fires, and zero otherwise; in particular it is never two. -/
theorem convEndedExactlyOnceWhileFrontendOpen
    (pre post : List Event) (c : Nat) (r : String)
    (hpre : ∀ e ∈ pre, isElCloseEvt e = false ∧ spoofsConvEnded e = false)
    (hpost : ∀ e ∈ post, isElCloseEvt e = false ∧ spoofsConvEnded e = false) :
    convEndedCount (run initState (pre ++ Event.elClose c r :: post)).2
      = if (run initState pre).1.feState ≠ .CLOSED
           ∧ (run initState pre).1.feState ≠ .CLOSING
        then 1 else 0 := by
  rw [run_snd_append, convEndedCount_append,
    run_no_convEnded pre initState hpre]
  have hrun : run (run initState pre).1 (Event.elClose c r :: post)
      = ((run (step (run initState pre).1 (Event.elClose c r)).1 post).1,
         (step (run initState pre).1 (Event.elClose c r)).2
           ++ (run (step (run initState pre).1 (Event.elClose c r)).1 post).2) := rfl
  rw [hrun]
  simp only [convEndedCount_append]
  rw [run_no_convEnded post _ hpost, elClose_convEnded_count]
  omega

/-- Witness for C1's amended theorem: a session where the agent closes the
conversation while the frontend is still connected. -/
theorem convEndedExactlyOnceWhileFrontendOpenWitness :
    convEndedCount (run initState
        ([Event.elOpen]
          ++ Event.elClose 1000 "agent done"
            :: [Event.feMessage (.binary [1])])).2
      = if (run initState [Event.elOpen]).1.feState ≠ .CLOSED
           ∧ (run initState [Event.elOpen]).1.feState ≠ .CLOSING
        then 1 else 0 :=
  convEndedExactlyOnceWhileFrontendOpen [Event.elOpen]
    [Event.feMessage (.binary [1])] 1000 "agent done"
    (by decide) (by decide)

/-! ### Claim C6: sequential in-order playback -/

/-- C6: after any sequence of enqueues and completion signals, the buffers
whose rendering completed, followed by the single buffer possibly in flight
(at most one, by the type of the current field), are exactly the nonempty
enqueued buffers of a consumed part of the enqueue order, with the pending
queue the corresponding suffix — so rendering happens in enqueue order with
no interleaving; the playing flag holds exactly while a buffer is in flight,
and an idle worker always has an empty queue, so the worker returns to idle
exactly when the queue is empty after a completion; moreover an enqueue
arriving while the worker is active only appends to the queue and never
starts a second worker. -/
theorem playbackSequentialOrder :
    (∀ es : List PlayEvent,
        (∃ p, enqueuedOf es = p ++ (runPlay initPlay es).audioQueue
           ∧ (runPlay initPlay es).rendered ++ (runPlay initPlay es).current.toList
               = p.filter nonEmptyBuf)
        ∧ (runPlay initPlay es).isAudioPlaying = (runPlay initPlay es).current.isSome
        ∧ ((runPlay initPlay es).isAudioPlaying = false
            → (runPlay initPlay es).audioQueue = []))
    ∧ ∀ (s : PlaybackState) (b : List Nat), s.isAudioPlaying = true →
        playStep s (.enqueue b) = { s with audioQueue := s.audioQueue ++ [b] } := by
  constructor
  · intro es
    have h0 : PlayInv [] initPlay :=
      ⟨⟨[], rfl, rfl⟩, rfl, fun _ => rfl⟩
    have h1 := runPlay_inv es [] initPlay h0
    simpa [PlayInv] using h1
  · intro s b hp
    simp [playStep, hp]

/-- Witness for C6: an enqueue arriving while a buffer is rendering only
appends to the queue, leaving the worker and the in-flight buffer alone. -/
theorem playbackSequentialOrderWitness :
    playStep { audioQueue := [[5]], isAudioPlaying := true,
               current := some [7], rendered := [[9]] } (.enqueue [2])
      = { audioQueue := [[5], [2]], isAudioPlaying := true,
          current := some [7], rendered := [[9]] } :=
  playbackSequentialOrder.2 _ [2] rfl

/-! ### Claim C7: PCM16 conversion -/

/-- On values whose truncation is already in the signed 16-bit range, the
Int16Array store is the truncation itself. -/
theorem toInt16_of_range (x : ℚ) (h1 : -32768 ≤ truncTowardZero x)
    (h2 : truncTowardZero x ≤ 32767) : toInt16 x = truncTowardZero x := by
  unfold toInt16
  split <;> omega

/-- C7: the float-to-PCM16 conversion clamps to [-1, 1], scales negatives by
32768 and non-negatives by 32767 and truncates, so every sample lands in
[-32768, 32767]; the boundary samples map as 1 ↦ 32767, -1 ↦ -32768 and
0 ↦ 0. -/
theorem pcm16RangeAndBoundaries :
    (∀ x : ℚ, -32768 ≤ floatToPcm16 x ∧ floatToPcm16 x ≤ 32767)
    ∧ floatToPcm16 1 = 32767 ∧ floatToPcm16 (-1) = -32768 ∧ floatToPcm16 0 = 0 := by
  refine ⟨?_, ?_, ?_, ?_⟩
  · intro x
    have hcl : -1 ≤ clampSample x := le_max_left _ _
    have hcu : clampSample x ≤ 1 := max_le (by norm_num) (min_le_left _ _)
    unfold floatToPcm16
    split
    case isTrue h =>
      have hneg : clampSample x * 32768 < 0 := by nlinarith
      have htr : truncTowardZero (clampSample x * 32768) = ⌈clampSample x * 32768⌉ :=
        if_pos hneg
      have hlo : (-32768 : ℤ) ≤ ⌈clampSample x * 32768⌉ := by
        have hq : ((-32768 : ℚ)) ≤ ((⌈clampSample x * 32768⌉ : ℤ) : ℚ) :=
          le_trans (by nlinarith) (Int.le_ceil _)
        exact_mod_cast hq
      have hhi : ⌈clampSample x * 32768⌉ ≤ 0 :=
        Int.ceil_le.mpr (by push_cast; nlinarith)
      rw [toInt16_of_range _ (by omega) (by omega)]
      omega
    case isFalse h =>
      have hge : 0 ≤ clampSample x := le_of_not_lt h
      have hnn : 0 ≤ clampSample x * 32767 := by positivity
      have htr : truncTowardZero (clampSample x * 32767) = ⌊clampSample x * 32767⌋ :=
        if_neg (not_lt.mpr hnn)
      have hlo : (0 : ℤ) ≤ ⌊clampSample x * 32767⌋ := Int.floor_nonneg.mpr hnn
      have hhi : ⌊clampSample x * 32767⌋ ≤ 32767 := by
        have hq : ((⌊clampSample x * 32767⌋ : ℤ) : ℚ) ≤ (32767 : ℚ) :=
          le_trans (Int.floor_le _) (by nlinarith)
        exact_mod_cast hq
      rw [toInt16_of_range _ (by omega) (by omega)]
      omega
  · norm_num [floatToPcm16, clampSample, toInt16, truncTowardZero,
      Int.ceil_neg, Int.floor_ofNat]
  · norm_num [floatToPcm16, clampSample, toInt16, truncTowardZero,
      Int.ceil_neg, Int.floor_ofNat]
  · norm_num [floatToPcm16, clampSample, toInt16, truncTowardZero,
      Int.ceil_neg, Int.floor_ofNat]

/-! ### Claim C8: resampleAudio matches the spec's reference definition -/

/-- C8: resampleAudio coincides with the spec's reference definition for
every input and every pair of rates — identity when the rates are equal, and
otherwise out[i] = in[i0] + frac*(in[i1]-in[i0]) with i0 = floor(i*step),
i1 = min(i0+1, len-1) and frac the fractional part of i*step — and in
particular resampling [0.1, -0.2, 0.3] at 16000→16000 is the identity. -/
theorem resampleMatchesSpecRef :
    (∀ (input : List ℚ) (srcRate dstRate : ℚ),
        resampleAudio input srcRate dstRate = resampleSpecRef input srcRate dstRate)
    ∧ resampleAudio [1/10, -2/10, 3/10] 16000 16000 = [1/10, -2/10, 3/10] := by
  constructor
  · intro input s d
    unfold resampleAudio resampleSpecRef
    split
    · rfl
    · apply List.map_congr_left
      intro i hi
      simp only [Int.fract]
  · rfl

/-! ### Claim C9: resampleAudio is total and in-bounds -/

/-- Math.round of a whole number of samples is that number. -/
theorem jsRound_natCast (L : ℕ) : jsRound (L : ℚ) = (L : ℤ) := by
  unfold jsRound
  rw [show ((L : ℚ)) = (((L : ℤ) : ℚ)) by push_cast; ring, Int.floor_int_add]
  norm_num

/-- For output index i below the rounded output length, the interpolation
read position floor(i * srcRate/dstRate) stays strictly below the input
length. -/
theorem floor_index_lt (L : ℕ) (s d : ℚ) (hs : 0 < s) (hd : 0 < d)
    (i : ℕ) (hi : (i : ℤ) < jsRound ((L : ℚ) * d / s)) :
    ⌊(i : ℚ) * (s / d)⌋ < (L : ℤ) := by
  have h1 : ((i : ℚ) + 1) ≤ (L : ℚ) * d / s + 1/2 := by
    have h1a : (i : ℤ) + 1 ≤ ⌊(L : ℚ) * d / s + 1/2⌋ := hi
    have h1b := Int.floor_le ((L : ℚ) * d / s + 1/2)
    have h1c : ((i : ℚ) + 1) ≤ ((⌊(L : ℚ) * d / s + 1/2⌋ : ℤ) : ℚ) := by
      exact_mod_cast h1a
    linarith
  have h2 : (i : ℚ) * s ≤ (L : ℚ) * d - s/2 := by
    have h2a : (i : ℚ) ≤ (L : ℚ) * d / s - 1/2 := by linarith
    have h2b : (i : ℚ) * s ≤ ((L : ℚ) * d / s - 1/2) * s :=
      mul_le_mul_of_nonneg_right h2a hs.le
    have h2c : ((L : ℚ) * d / s - 1/2) * s = (L : ℚ) * d - s/2 := by
      field_simp
      ring
    linarith
  have h3 : (i : ℚ) * (s / d) < (L : ℚ) := by
    rw [mul_div_assoc']
    exact (div_lt_iff₀ hd).mpr (by linarith)
  exact Int.floor_lt.mpr (by push_cast; exact h3)

/-- C9: for any input and positive rates, resampleAudio is total and reads
only in-bounds indices — floor(i*step) and min(floor(i*step)+1, len-1) are
at most len-1 for every output index i — its output length is
Math.round(len * dstRate / srcRate), and the empty input yields the empty
output. -/
theorem resampleTotalInBounds (input : List ℚ) (srcRate dstRate : ℚ)
    (hs : 0 < srcRate) (hd : 0 < dstRate) :
    (resampleAudio input srcRate dstRate).length
        = (jsRound ((input.length : ℚ) * dstRate / srcRate)).toNat
    ∧ resampleAudio [] srcRate dstRate = []
    ∧ ∀ i < (jsRound ((input.length : ℚ) * dstRate / srcRate)).toNat,
        (⌊(i : ℚ) * (srcRate / dstRate)⌋).toNat ≤ input.length - 1
        ∧ (min (⌊(i : ℚ) * (srcRate / dstRate)⌋ + 1) ((input.length : ℤ) - 1)).toNat
            ≤ input.length - 1 := by
  refine ⟨?_, ?_, ?_⟩
  · unfold resampleAudio
    split
    case isTrue h =>
      have h1 : ((input.length : ℚ)) * dstRate / srcRate = (input.length : ℚ) := by
        rw [h]
        field_simp
      rw [h1, jsRound_natCast]
      omega
    case isFalse h =>
      simp
  · have hz : jsRound ((0 : ℚ)) = 0 := by simpa using jsRound_natCast 0
    unfold resampleAudio
    split
    · rfl
    · simp [hz]
  · intro i hi
    have hiz : (i : ℤ) < jsRound ((input.length : ℚ) * dstRate / srcRate) := by
      omega
    have hfl := floor_index_lt input.length srcRate dstRate hs hd i hiz
    have hf0 : 0 ≤ ⌊(i : ℚ) * (srcRate / dstRate)⌋ :=
      Int.floor_nonneg.mpr (by positivity)
    omega

/-- Witness for C9 at a concrete downsampling instance. -/
theorem resampleTotalInBoundsWitness :
    (0 : ℚ) < 32000 ∧ (0 : ℚ) < 16000
    ∧ ((resampleAudio [1, 2] 32000 16000).length
          = (jsRound ((List.length [(1 : ℚ), 2] : ℚ) * 16000 / 32000)).toNat
        ∧ resampleAudio [] 32000 16000 = []
        ∧ ∀ i < (jsRound ((List.length [(1 : ℚ), 2] : ℚ) * 16000 / 32000)).toNat,
            (⌊(i : ℚ) * ((32000 : ℚ) / 16000)⌋).toNat ≤ List.length [(1 : ℚ), 2] - 1
            ∧ (min (⌊(i : ℚ) * ((32000 : ℚ) / 16000)⌋ + 1)
                  ((List.length [(1 : ℚ), 2] : ℤ) - 1)).toNat
                ≤ List.length [(1 : ℚ), 2] - 1) :=
  ⟨by norm_num, by norm_num,
   resampleTotalInBounds [1, 2] 32000 16000 (by norm_num) (by norm_num)⟩

end VoiceAgent
